import Mathlib

/-!
# Verification of the AnishScan scan-orchestration core

Shallow embedding of the scan lifecycle of the AnishScan repository:
the agent-side scan pipeline (`scanController.js`, `resultsService.js`,
`pollService.js`, the scanner adapters) and the coordinator
(`ScansController.cs`, `ScanService.cs`, `AgentService.cs`,
`AgentsController.cs`, backed by MongoDB collections).

Conventions:
- JavaScript / C# strings are Lean `String`; numbers that are used as
  counters or line numbers are `Nat`.
- MongoDB collections are Lean lists of records; `InsertOne` appends,
  `UpdateOneAsync` updates the first match and reports
  `MatchedCount`/`ModifiedCount` with MongoDB's semantics (a write of an
  identical value matches but does not modify).
- BSON ObjectId generation is modelled by a fresh-id counter in the
  database state.
- Fallible network calls are modelled by explicit outcome environments;
  a thrown JS exception is an `Except`/`Bool` flag.
-/

/-! ## String helpers: JS `String.prototype.includes` / `endsWith` -/

/-- JS `s.includes(pat)`: `pat` occurs as a contiguous substring of `s`. -/
def strIncludes (s pat : String) : Bool :=
  s.data.tails.any (fun t => pat.data.isPrefixOf t)

/-- JS `s.endsWith(pat)`. -/
def strEndsWith (s pat : String) : Bool :=
  pat.data.isSuffixOf s.data

/-! ## Agent-side findings

A scanner adapter produces plain objects with the seven descriptive
fields; some scanners also set a `scanner` tag, some do not, so `scanner`
is optional on the raw object (`finding.scanner` may be `undefined`).
`resultsService.submitResults` maps each raw finding to the wire shape,
defaulting the scanner tag to `"unknown"` (resultsService.js lines 78-87).
-/

/-- A finding as produced by a scanner adapter (agent side). -/
structure RawFinding where
  ruleId : String
  severity : String
  filePath : String
  lineNumber : Nat
  description : String
  codeSnippet : String
  recommendation : String
  scanner : Option String
deriving DecidableEq, Repr

/-- A finding as mapped by `submitResults` before submission
(resultsService.js lines 78-87): `scanner: finding.scanner || 'unknown'`. -/
structure MappedFinding where
  ruleId : String
  severity : String
  filePath : String
  lineNumber : Nat
  description : String
  codeSnippet : String
  recommendation : String
  scanner : String
deriving DecidableEq, Repr

/-- `resultsService.js` lines 78-87: the per-finding mapping. -/
def mapFinding (f : RawFinding) : MappedFinding :=
  { ruleId := f.ruleId
    severity := f.severity
    filePath := f.filePath
    lineNumber := f.lineNumber
    description := f.description
    codeSnippet := f.codeSnippet
    recommendation := f.recommendation
    scanner := f.scanner.getD "unknown" }

/-! ## Summary generation (`scanController.js` lines 234-246) -/

/-- `generateSummary` from scanController.js lines 234-246, transcribed
clause by clause (the JS template literal becomes `++` concatenation). -/
def generateSummary (findings : List RawFinding) : String :=
  if findings.length = 0 then
    "No issues found."
  else
    let criticalCount := (findings.filter (fun f => f.severity == "Critical")).length
    let highCount := (findings.filter (fun f => f.severity == "High")).length
    let mediumCount := (findings.filter (fun f => f.severity == "Medium")).length
    let lowCount := (findings.filter (fun f => f.severity == "Low")).length
    let infoCount := (findings.filter (fun f => f.severity == "Info")).length
    "Found " ++ toString findings.length ++ " issues: " ++
      toString criticalCount ++ " Critical, " ++
      toString highCount ++ " High, " ++
      toString mediumCount ++ " Medium, " ++
      toString lowCount ++ " Low, " ++
      toString infoCount ++ " Info."

/-- A raw finding with the given severity (other fields arbitrary but
fixed), used for concrete test inputs. -/
def rawWithSeverity (sev : String) : RawFinding :=
  { ruleId := "RULE-1", severity := sev, filePath := "src/a.ts",
    lineNumber := 1, description := "d", codeSnippet := "c",
    recommendation := "r", scanner := none }

/-- Claim C5: the summary generator returns exactly "No issues found." for
an empty findings list, and otherwise "Found {n} issues: {c} Critical,
{h} High, {m} Medium, {l} Low, {i} Info." where n is the number of
findings and c, h, m, l, i count the findings at each severity level;
for severities [Critical, High, High] it returns
"Found 3 issues: 1 Critical, 2 High, 0 Medium, 0 Low, 0 Info.". -/
theorem claim_C5 :
    generateSummary [] = "No issues found." ∧
    (∀ fs : List RawFinding, fs ≠ [] →
      generateSummary fs =
        "Found " ++ toString fs.length ++ " issues: " ++
        toString ((fs.filter (fun f => f.severity == "Critical")).length) ++ " Critical, " ++
        toString ((fs.filter (fun f => f.severity == "High")).length) ++ " High, " ++
        toString ((fs.filter (fun f => f.severity == "Medium")).length) ++ " Medium, " ++
        toString ((fs.filter (fun f => f.severity == "Low")).length) ++ " Low, " ++
        toString ((fs.filter (fun f => f.severity == "Info")).length) ++ " Info.") ∧
    generateSummary [rawWithSeverity "Critical", rawWithSeverity "High", rawWithSeverity "High"] =
      "Found 3 issues: 1 Critical, 2 High, 0 Medium, 0 Low, 0 Info." := by
  refine ⟨rfl, ?_, by decide⟩
  intro fs h
  have hl : fs.length ≠ 0 := by simpa using h
  simp [generateSummary, hl]

/-- Witness for C5: the nonempty-list clause applied at a concrete input. -/
theorem claim_C5_witness :
    generateSummary [rawWithSeverity "Critical"] =
      "Found 1 issues: 1 Critical, 0 High, 0 Medium, 0 Low, 0 Info." := by
  have h := claim_C5.2.1 [rawWithSeverity "Critical"] (by decide)
  simpa using h

/-! ## Batched submission (`resultsService.js`)

`submitFindingsBatch(scanId, findings, batchSize)` walks the findings in
slices `findings.slice(i, i + batchSize)` for `i = 0, batchSize, ...`
(resultsService.js lines 19-64) and reports
`totalBatches = Math.ceil(findings.length / batchSize)` in each batch's
metadata.  The loop is modelled with a fuel argument bounded by the list
length; for `batchSize ≥ 1` (the call sites use 25 and 50) the fuel never
runs out, so the model agrees with the JS loop.
-/

/-- The slicing loop of `submitFindingsBatch`, fuel-bounded. -/
def batchLoop (batchSize : Nat) : Nat → List α → List (List α)
  | 0, _ => []
  | _ + 1, [] => []
  | fuel + 1, x :: rest =>
      (x :: rest).take batchSize :: batchLoop batchSize fuel ((x :: rest).drop batchSize)

/-- The list of batches `submitFindingsBatch` posts, in posting order. -/
def submitBatches (batchSize : Nat) (findings : List α) : List (List α) :=
  batchLoop batchSize findings.length findings

/-- `Math.ceil(findings.length / batchSize)` (resultsService.js line 22),
the `totalBatches` metadata carried by every batch call. -/
def totalBatches (batchSize : Nat) (findings : List α) : Nat :=
  (findings.length + batchSize - 1) / batchSize

/-- The C#-priority predicate of `submitResults`
(resultsService.js lines 92-97): scanner tag `csharp`, or `csharp` /
`CSHARP` inside the rule id, or a `.cs` file path. -/
def isCSharpFinding (f : MappedFinding) : Bool :=
  f.scanner == "csharp" ||
  strIncludes f.ruleId "csharp" ||
  strEndsWith f.filePath ".cs" ||
  strIncludes f.ruleId "CSHARP"

/-- The complete batch plan of `submitResults` (lines 92-124): the
C#-priority group in batches of 25 first, then the remainder in batches
of 50.  `otherFindings` is computed in JS with `!csharpFindings.includes(f)`,
which is reference equality over the freshly mapped objects, i.e. exactly
the complement filter. -/
def plannedBatches (mapped : List MappedFinding) : List (List MappedFinding) :=
  submitBatches 25 (mapped.filter isCSharpFinding) ++
  submitBatches 50 (mapped.filter (fun f => !isCSharpFinding f))

theorem batchLoop_sizes (bs : Nat) : ∀ (fuel : Nat) (xs : List α),
    ∀ b ∈ batchLoop bs fuel xs, b.length ≤ bs := by
  intro fuel
  induction fuel with
  | zero => intro xs b hb; simp [batchLoop] at hb
  | succ n ih =>
    intro xs b hb
    cases xs with
    | nil => simp [batchLoop] at hb
    | cons x rest =>
      simp only [batchLoop, List.mem_cons] at hb
      rcases hb with h | h
      · subst h; simp
      · exact ih _ _ h

theorem batchLoop_flatten (bs : Nat) (hbs : 0 < bs) : ∀ (fuel : Nat) (xs : List α),
    xs.length ≤ fuel → (batchLoop bs fuel xs).flatten = xs := by
  intro fuel
  induction fuel with
  | zero => intro xs h; simp at h; simp [h, batchLoop]
  | succ n ih =>
    intro xs h
    cases xs with
    | nil => simp [batchLoop]
    | cons x rest =>
      simp only [batchLoop, List.flatten_cons]
      rw [ih]
      · exact List.take_append_drop bs (x :: rest)
      · rw [List.length_drop]
        simp only [List.length_cons] at h ⊢
        omega

theorem ceil_div_step (bs len : Nat) (hbs : 0 < bs) (hl : 0 < len) :
    (len + bs - 1) / bs = (len - bs + bs - 1) / bs + 1 := by
  obtain ⟨k, rfl⟩ : ∃ k, len = k + 1 := ⟨len - 1, by omega⟩
  rcases Nat.lt_or_ge k bs with hk | hk
  · have h1 : k + 1 + bs - 1 = k + bs := by omega
    have h2 : k + 1 - bs = 0 := by omega
    rw [h1, h2, Nat.add_div_right _ hbs, Nat.div_eq_of_lt hk]
    have h4 : 0 + bs - 1 = bs - 1 := by omega
    rw [h4, Nat.div_eq_of_lt (by omega)]
  · have h1 : k + 1 + bs - 1 = k + bs := by omega
    have h2 : k + 1 - bs + bs - 1 = (k - bs) + bs := by omega
    rw [h1, h2, Nat.add_div_right _ hbs, Nat.add_div_right _ hbs]
    have h5 : k / bs = (k - bs) / bs + 1 := by
      conv_lhs => rw [show k = (k - bs) + bs by omega]
      rw [Nat.add_div_right _ hbs]
    omega

theorem batchLoop_count (bs : Nat) (hbs : 0 < bs) : ∀ (fuel : Nat) (xs : List α),
    xs.length ≤ fuel → (batchLoop bs fuel xs).length = (xs.length + bs - 1) / bs := by
  intro fuel
  induction fuel with
  | zero =>
    intro xs h; simp at h; simp [h, batchLoop]
    exact (Nat.div_eq_of_lt (by omega)).symm
  | succ n ih =>
    intro xs h
    cases xs with
    | nil =>
      simp [batchLoop]
      exact (Nat.div_eq_of_lt (by omega)).symm
    | cons x rest =>
      simp only [batchLoop, List.length_cons]
      rw [ih]
      · rw [List.length_drop]
        simp only [List.length_cons]
        exact (ceil_div_step bs (rest.length + 1) hbs (by omega)).symm
      · rw [List.length_drop]
        simp only [List.length_cons] at h ⊢
        omega

/-- A concrete priority-tagged finding (scanner tag `csharp`). -/
def fCsharp : MappedFinding :=
  { ruleId := "CSHARP-SQL-INJECTION", severity := "High",
    filePath := "src/Data/Repo.cs", lineNumber := 10,
    description := "d", codeSnippet := "c", recommendation := "r",
    scanner := "csharp" }

/-- A concrete non-priority finding (scanner tag `angular`, no `.cs`
path, no `csharp` in the rule id). -/
def fAngular : MappedFinding :=
  { ruleId := "ANGULAR-XSS", severity := "Medium",
    filePath := "src/app/app.component.html", lineNumber := 3,
    description := "d", codeSnippet := "c", recommendation := "r",
    scanner := "angular" }

/-- Claim C4: result submission partitions the findings into a priority
group (the C# predicate on the scanner tag / rule id / file path)
submitted first in batches of at most 25, then the remainder in batches
of at most 50, with `totalBatches` metadata equal to
`ceil(groupSize / batchSize)` for each group; for 120 findings of which
30 are priority-tagged this gives priority batches 25+5 (2 batches) and
remainder batches 50+40 (2 batches). -/
theorem claim_C4 :
    (∀ (bs : Nat), 0 < bs → ∀ (xs : List MappedFinding),
      (∀ b ∈ submitBatches bs xs, b.length ≤ bs) ∧
      (submitBatches bs xs).length = totalBatches bs xs ∧
      (submitBatches bs xs).flatten = xs) ∧
    (∀ m : List MappedFinding,
      (plannedBatches m).flatten =
        m.filter isCSharpFinding ++ m.filter (fun f => !isCSharpFinding f)) ∧
    (((List.replicate 30 fCsharp ++ List.replicate 90 fAngular).filter isCSharpFinding)
        = List.replicate 30 fCsharp ∧
     ((List.replicate 30 fCsharp ++ List.replicate 90 fAngular).filter
        (fun f => !isCSharpFinding f)) = List.replicate 90 fAngular ∧
     (submitBatches 25 (List.replicate 30 fCsharp)).map List.length = [25, 5] ∧
     (submitBatches 50 (List.replicate 90 fAngular)).map List.length = [50, 40] ∧
     totalBatches 25 (List.replicate 30 fCsharp) = 2 ∧
     totalBatches 50 (List.replicate 90 fAngular) = 2) := by
  refine ⟨?_, ?_, by decide, by decide, by decide, by decide, by decide, by decide⟩
  · intro bs hbs xs
    exact ⟨batchLoop_sizes bs xs.length xs,
           batchLoop_count bs hbs xs.length xs le_rfl,
           batchLoop_flatten bs hbs xs.length xs le_rfl⟩
  · intro m
    rw [plannedBatches, List.flatten_append, submitBatches, submitBatches,
        batchLoop_flatten 25 (by omega) _ _ le_rfl,
        batchLoop_flatten 50 (by omega) _ _ le_rfl]

/-- Witness for C4: the general batching clause applied at batch size 25
and a concrete one-element list. -/
theorem claim_C4_witness :
    (∀ b ∈ submitBatches 25 [fCsharp], b.length ≤ 25) ∧
    (submitBatches 25 [fCsharp]).length = totalBatches 25 [fCsharp] ∧
    (submitBatches 25 [fCsharp]).flatten = [fCsharp] :=
  claim_C4.1 25 (by decide) [fCsharp]

/-! ## The Coordinator (MCPServer)

Models, DTOs, `ScanService` / `AgentService` (MongoDB-backed) and the
`ScansController` / `AgentsController` actions.  A MongoDB collection is
a list of records; `InsertOneAsync` appends; BSON ObjectId generation is
a fresh-id counter (`nextId`) on the database state; `UpdateOneAsync`
with a `$set` updates the first matching document and reports MongoDB's
`MatchedCount`/`ModifiedCount` — in particular a `$set` writing the value
already stored matches the document but does not modify it, so
`ModifiedCount` is 0.
-/

namespace MCPServer

/-- `Models/Agent.cs`. -/
structure Agent where
  id : Nat
  name : String
  ipAddress : String
  capabilities : String
  lastSeen : Nat
  isActive : Bool
deriving DecidableEq, Repr

/-- `Models/ScanRequest.cs` (in DataSeeder.cs). -/
structure ScanRequest where
  id : Nat
  repositoryUrl : String
  branch : String
  agentId : Nat
  requestedAt : Nat
  status : String
deriving DecidableEq, Repr

/-- `Models/ScanResult.cs`: the `Finding` class.  Its fields are RuleId,
Severity, FilePath, LineNumber, Description, CodeSnippet and
Recommendation — the class has no originating-scanner field. -/
structure Finding where
  ruleId : String
  severity : String
  filePath : String
  lineNumber : Nat
  description : String
  codeSnippet : String
  recommendation : String
deriving DecidableEq, Repr

/-- `Models/ScanResult.cs`: the `ScanResult` class. -/
structure ScanResult where
  id : Nat
  scanRequestId : Nat
  agentId : Nat
  completedAt : Nat
  findings : List Finding
  summary : String
deriving DecidableEq, Repr

/-- `Models/DTOs/AgentRegistrationDto.cs`. -/
structure AgentRegistrationDto where
  name : String
  ipAddress : String
  capabilities : String
deriving DecidableEq, Repr

/-- `Models/DTOs/ScanRequestDto.cs`. -/
structure ScanRequestDto where
  repositoryUrl : String
  branch : String
  agentId : Nat
deriving DecidableEq, Repr

/-- `Models/DTOs/ScanResultSubmissionDto.cs`: the `FindingDto` class.
Like `Finding`, it declares no scanner property. -/
structure FindingDto where
  ruleId : String
  severity : String
  filePath : String
  lineNumber : Nat
  description : String
  codeSnippet : String
  recommendation : String
deriving DecidableEq, Repr

/-- `Models/DTOs/ScanResultSubmissionDto.cs`. -/
structure ScanResultSubmissionDto where
  scanRequestId : Nat
  agentId : Nat
  findings : List FindingDto
  summary : String
deriving DecidableEq, Repr

/-- The durable store: the three MongoDB collections plus the ObjectId
generator. -/
structure McpDb where
  agents : List Agent
  scanRequests : List ScanRequest
  scanResults : List ScanResult
  nextId : Nat
deriving DecidableEq, Repr

/-- The driver's reply to `UpdateOneAsync`. -/
structure UpdateOneResult where
  matchedCount : Nat
  modifiedCount : Nat
deriving DecidableEq, Repr

/-- MongoDB `UpdateOneAsync` with a `$set` modifier: update the first
document matching the filter; a write of an identical value matches but
does not modify. -/
def updateFirst [DecidableEq α] (p : α → Bool) (u : α → α) : List α → List α × UpdateOneResult
  | [] => ([], ⟨0, 0⟩)
  | x :: xs =>
    if p x then
      let x' := u x
      (x' :: xs, ⟨1, if x' = x then 0 else 1⟩)
    else
      let (xs', r) := updateFirst p u xs
      (x :: xs', r)

/-- An MVC action result: `Ok`/`Created`/`NoContent` carry the payload,
`NotFound()` is 404, `BadRequest(msg)` is 400. -/
inductive ApiResult (α : Type) where
  | ok (value : α)
  | notFound
  | badRequest (msg : String)
deriving DecidableEq, Repr

/-- `AgentService.GetAgentByIdAsync`. -/
def getAgentById (db : McpDb) (id : Nat) : Option Agent :=
  db.agents.find? (fun a => a.id == id)

/-- `ScanService.GetScanRequestByIdAsync`. -/
def getScanRequestById (db : McpDb) (id : Nat) : Option ScanRequest :=
  db.scanRequests.find? (fun s => s.id == id)

/-- `ScanService.CreateScanRequestAsync` (part_008 lines 29-42): build a
`Pending` request and insert it. -/
def createScanRequestAsync (db : McpDb) (dto : ScanRequestDto) (now : Nat) :
    ScanRequest × McpDb :=
  let scanRequest : ScanRequest :=
    { id := db.nextId
      repositoryUrl := dto.repositoryUrl
      branch := dto.branch
      agentId := dto.agentId
      requestedAt := now
      status := "Pending" }
  (scanRequest,
   { db with scanRequests := db.scanRequests ++ [scanRequest], nextId := db.nextId + 1 })

/-- `ScanService.UpdateScanRequestStatusAsync` (part_008 lines 44-49):
`$set` the status on the first matching request and return
`ModifiedCount > 0`. -/
def updateScanRequestStatusAsync (db : McpDb) (id : Nat) (status : String) :
    McpDb × Bool :=
  let res := updateFirst (fun s => s.id == id) (fun s => { s with status := status })
    db.scanRequests
  ({ db with scanRequests := res.1 }, decide (0 < res.2.modifiedCount))

/-- `ScanService.SubmitScanResultAsync` (part_008 lines 66-94): set the
request's status to `Completed` (result ignored), map each `FindingDto`
to a `Finding` — copying RuleId, Severity, FilePath, LineNumber,
Description, CodeSnippet and Recommendation — and insert a new
`ScanResult`. -/
def findingOfDto (f : FindingDto) : Finding :=
  { ruleId := f.ruleId
    severity := f.severity
    filePath := f.filePath
    lineNumber := f.lineNumber
    description := f.description
    codeSnippet := f.codeSnippet
    recommendation := f.recommendation }

def submitScanResultAsync (db : McpDb) (dto : ScanResultSubmissionDto) (now : Nat) :
    ScanResult × McpDb :=
  let db1 := (updateScanRequestStatusAsync db dto.scanRequestId "Completed").1
  let scanResult : ScanResult :=
    { id := db1.nextId
      scanRequestId := dto.scanRequestId
      agentId := dto.agentId
      completedAt := now
      findings := dto.findings.map findingOfDto
      summary := dto.summary }
  (scanResult,
   { db1 with scanResults := db1.scanResults ++ [scanResult], nextId := db1.nextId + 1 })

/-- `AgentService.RegisterAgentAsync` (part_009 lines 27-40): always
insert a brand-new record, active, `LastSeen = now`. -/
def registerAgentAsync (db : McpDb) (dto : AgentRegistrationDto) (now : Nat) :
    Agent × McpDb :=
  let agent : Agent :=
    { id := db.nextId
      name := dto.name
      ipAddress := dto.ipAddress
      capabilities := dto.capabilities
      lastSeen := now
      isActive := true }
  (agent, { db with agents := db.agents ++ [agent], nextId := db.nextId + 1 })

/-- `ScansController.CreateScanRequest` (ScansController.cs lines 60-80):
verify the agent exists (`BadRequest("Agent not found")` otherwise), then
create. -/
def createScanRequest (db : McpDb) (dto : ScanRequestDto) (now : Nat) :
    McpDb × ApiResult ScanRequest :=
  match getAgentById db dto.agentId with
  | none => (db, ApiResult.badRequest "Agent not found")
  | some _ =>
    let (scanRequest, db') := createScanRequestAsync db dto now
    (db', ApiResult.ok scanRequest)

/-- `ScansController.UpdateScanRequestStatus` (lines 82-99): `NotFound()`
when the service reports failure, `NoContent()` otherwise. -/
def updateScanRequestStatus (db : McpDb) (id : Nat) (status : String) :
    McpDb × ApiResult Unit :=
  let r := updateScanRequestStatusAsync db id status
  (r.1, if r.2 then ApiResult.ok () else ApiResult.notFound)

/-- `ScansController.SubmitScanResult` (lines 154-181): verify scan
request and agent exist (`BadRequest` otherwise), then submit. -/
def submitScanResult (db : McpDb) (dto : ScanResultSubmissionDto) (now : Nat) :
    McpDb × ApiResult ScanResult :=
  match getScanRequestById db dto.scanRequestId with
  | none => (db, ApiResult.badRequest "Scan request not found")
  | some _ =>
    match getAgentById db dto.agentId with
    | none => (db, ApiResult.badRequest "Agent not found")
    | some _ =>
      let (scanResult, db') := submitScanResultAsync db dto now
      (db', ApiResult.ok scanResult)

/-- `AgentsController.RegisterAgent` (part_014 lines 55-68): no lookup,
no validation — every call registers a fresh record. -/
def registerAgent (db : McpDb) (dto : AgentRegistrationDto) (now : Nat) :
    McpDb × ApiResult Agent :=
  let (agent, db') := registerAgentAsync db dto now
  (db', ApiResult.ok agent)

end MCPServer

open MCPServer

namespace MCPServer

theorem updateFirst_not_found [DecidableEq α] (p : α → Bool) (u : α → α) :
    ∀ l : List α, l.find? p = none → updateFirst p u l = (l, ⟨0, 0⟩) := by
  intro l
  induction l with
  | nil => intro _; rfl
  | cons x xs ih =>
    intro h
    by_cases hp : p x
    · rw [List.find?_cons_of_pos _ hp] at h; exact absurd h (by simp)
    · rw [List.find?_cons_of_neg _ hp] at h
      simp [updateFirst, hp, ih h]

theorem updateFirst_same [DecidableEq α] (p : α → Bool) (u : α → α) :
    ∀ (l : List α) (r : α), l.find? p = some r → u r = r →
      updateFirst p u l = (l, ⟨1, 0⟩) := by
  intro l
  induction l with
  | nil => intro r h; simp at h
  | cons x xs ih =>
    intro r h hu
    by_cases hp : p x
    · rw [List.find?_cons_of_pos _ hp] at h
      have hx : x = r := by simpa using h
      subst hx
      simp [updateFirst, hp, hu]
    · rw [List.find?_cons_of_neg _ hp] at h
      have := ih r h hu
      simp [updateFirst, hp, this]

theorem updateFirst_diff [DecidableEq α] (p : α → Bool) (u : α → α) :
    ∀ (l : List α) (r : α), l.find? p = some r → u r ≠ r →
      (updateFirst p u l).2 = ⟨1, 1⟩ := by
  intro l
  induction l with
  | nil => intro r h; simp at h
  | cons x xs ih =>
    intro r h hu
    by_cases hp : p x
    · rw [List.find?_cons_of_pos _ hp] at h
      have hx : x = r := by simpa using h
      subst hx
      simp [updateFirst, hp, hu]
    · rw [List.find?_cons_of_neg _ hp] at h
      have := ih r h hu
      simp [updateFirst, hp, this]

theorem updateFirst_find [DecidableEq α] (p : α → Bool) (u : α → α)
    (hpu : ∀ x, p (u x) = p x) :
    ∀ (l : List α) (r : α), l.find? p = some r →
      (updateFirst p u l).1.find? p = some (u r) := by
  intro l
  induction l with
  | nil => intro r h; simp at h
  | cons x xs ih =>
    intro r h
    by_cases hp : p x
    · rw [List.find?_cons_of_pos _ hp] at h
      have hx : x = r := by simpa using h
      subst hx
      have hpu' : p (u x) = true := by rw [hpu]; exact hp
      by_cases he : u x = x
      · simp [updateFirst, hp, he, List.find?_cons_of_pos _ hpu']
      · simp [updateFirst, hp, he, List.find?_cons_of_pos _ hpu']
    · rw [List.find?_cons_of_neg _ hp] at h
      have := ih r h
      simp [updateFirst, hp, List.find?_cons_of_neg _ hp, this]

theorem setStatus_self (r : ScanRequest) (s : String) (h : r.status = s) :
    ({ r with status := s } : ScanRequest) = r := by
  cases r; simp_all

theorem setStatus_ne (r : ScanRequest) (s : String) (h : r.status ≠ s) :
    ({ r with status := s } : ScanRequest) ≠ r := by
  intro hc
  exact h (congrArg ScanRequest.status hc).symm

end MCPServer

/-! ## Concrete coordinator fixtures -/

/-- A concrete registered agent. -/
def agent1 : Agent :=
  { id := 1, name := "OWASP_Scanner_Agent", ipAddress := "127.0.0.1:3000",
    capabilities := "C#,Angular,React,jQuery", lastSeen := 0, isActive := true }

/-- A concrete pending scan request assigned to `agent1`. -/
def reqPending : ScanRequest :=
  { id := 0, repositoryUrl := "https://example.com/repo.git", branch := "main",
    agentId := 1, requestedAt := 0, status := "Pending" }

/-- A concrete database: one agent, one pending request, no results. -/
def db0 : McpDb :=
  { agents := [agent1], scanRequests := [reqPending], scanResults := [], nextId := 2 }

/-- Counterexample to C2 as stated: request id 0 exists in `db0` with
stored status "Pending", yet `PUT /api/Scans/requests/0/status` with body
"Pending" — repeating the stored status — returns `NotFound()`, because
MongoDB's `UpdateOneAsync` reports `ModifiedCount = 0` for the no-op
write and `UpdateScanRequestStatusAsync` returns `ModifiedCount > 0`. -/
theorem claim_C2_counterexample :
    getScanRequestById db0 0 = some reqPending ∧
    updateScanRequestStatus db0 0 "Pending" = (db0, ApiResult.notFound) := by
  decide

/-- Claim C2, amended: `UpdateStatus` on an unknown request id fails with
`NotFound` and changes nothing; on an existing id with a status string
different from the stored one it succeeds and the stored status equals
the value written (no transition validation); but repeating the currently
stored status does NOT succeed: the no-op write has `ModifiedCount = 0`,
so the endpoint replies `NotFound()` (the store is unchanged, hence still
equal to the value written). -/
theorem claim_C2 :
    (∀ (db : McpDb) (id : Nat) (status : String),
      getScanRequestById db id = none →
      updateScanRequestStatus db id status = (db, ApiResult.notFound)) ∧
    (∀ (db : McpDb) (id : Nat) (status : String) (r : ScanRequest),
      getScanRequestById db id = some r → r.status ≠ status →
      (updateScanRequestStatus db id status).2 = ApiResult.ok () ∧
      getScanRequestById (updateScanRequestStatus db id status).1 id =
        some { r with status := status }) ∧
    (∀ (db : McpDb) (id : Nat) (r : ScanRequest),
      getScanRequestById db id = some r →
      updateScanRequestStatus db id r.status = (db, ApiResult.notFound)) := by
  refine ⟨?_, ?_, ?_⟩
  · intro db id status h
    have h' : db.scanRequests.find? (fun s => s.id == id) = none := h
    have h2 := MCPServer.updateFirst_not_found (fun s => s.id == id)
      (fun s => { s with status := status }) db.scanRequests h'
    simp [updateScanRequestStatus, updateScanRequestStatusAsync, h2]
  · intro db id status r h hne
    have h' : db.scanRequests.find? (fun s => s.id == id) = some r := h
    have hner : ({ r with status := status } : ScanRequest) ≠ r :=
      MCPServer.setStatus_ne r status hne
    have h2 := MCPServer.updateFirst_diff (fun s => s.id == id)
      (fun s => { s with status := status }) db.scanRequests r h' hner
    have h3 := MCPServer.updateFirst_find (fun s => s.id == id)
      (fun s => { s with status := status }) (fun _ => rfl) db.scanRequests r h'
    constructor
    · simp [updateScanRequestStatus, updateScanRequestStatusAsync, h2]
    · simp only [updateScanRequestStatus, updateScanRequestStatusAsync, getScanRequestById]
      simpa using h3
  · intro db id r h
    have h' : db.scanRequests.find? (fun s => s.id == id) = some r := h
    have heq : ({ r with status := r.status } : ScanRequest) = r :=
      MCPServer.setStatus_self r r.status rfl
    have h2 := MCPServer.updateFirst_same (fun s => s.id == id)
      (fun s => { s with status := r.status }) db.scanRequests r h' heq
    simp [updateScanRequestStatus, updateScanRequestStatusAsync, h2]

/-- Witness for C2: the success clause applied at `db0` with the new
status "InProgress", and the unknown-id clause at id 99. -/
theorem claim_C2_witness :
    ((updateScanRequestStatus db0 0 "InProgress").2 = ApiResult.ok () ∧
     getScanRequestById (updateScanRequestStatus db0 0 "InProgress").1 0 =
       some { reqPending with status := "InProgress" }) ∧
    updateScanRequestStatus db0 99 "Failed" = (db0, ApiResult.notFound) :=
  ⟨claim_C2.2.1 db0 0 "InProgress" reqPending (by decide) (by decide),
   claim_C2.1 db0 99 "Failed" (by decide)⟩

/-- Claim C8: `CreateScanRequest` with an agentId that references no
existing agent fails with the missing-reference client error (the 4xx
`BadRequest("Agent not found")`, the spec's `NotFound` taxonomy case) and
persists nothing: the returned store is the input store, so no
ScanRequest record is inserted. -/
theorem claim_C8 :
    ∀ (db : McpDb) (dto : ScanRequestDto) (now : Nat),
      getAgentById db dto.agentId = none →
      createScanRequest db dto now = (db, ApiResult.badRequest "Agent not found") ∧
      (createScanRequest db dto now).1.scanRequests = db.scanRequests := by
  intro db dto now h
  unfold createScanRequest
  rw [h]
  exact ⟨rfl, rfl⟩

/-- Witness for C8: `db0` has no agent with id 99. -/
theorem claim_C8_witness :
    createScanRequest db0 ⟨"https://example.com/r.git", "main", 99⟩ 5 =
      (db0, ApiResult.badRequest "Agent not found") ∧
    (createScanRequest db0 ⟨"https://example.com/r.git", "main", 99⟩ 5).1.scanRequests =
      db0.scanRequests :=
  claim_C8 db0 ⟨"https://example.com/r.git", "main", 99⟩ 5 (by decide)

/-! ## C3: what survives the submission wire format

The agent posts findings containing a `scanner` property
(resultsService.js lines 78-87).  ASP.NET Core binds the JSON body to
`ScanResultSubmissionDto`; a JSON property with no counterpart on the
DTO — here `scanner`, absent from `FindingDto` — is discarded by the
binder.  `ScanService.SubmitScanResultAsync` then maps the DTO to the
stored `Finding`, which also has no scanner field.
-/

/-- JSON model binding of one submitted finding onto `FindingDto`: the
seven declared properties are bound, everything else (the `scanner`
property) is ignored. -/
def bindFindingDto (f : MappedFinding) : FindingDto :=
  { ruleId := f.ruleId
    severity := f.severity
    filePath := f.filePath
    lineNumber := f.lineNumber
    description := f.description
    codeSnippet := f.codeSnippet
    recommendation := f.recommendation }

/-- The stored `Finding` produced from one finding sent by the agent:
binding onto the DTO followed by the service's DTO-to-model mapping. -/
def storedFindingOfSent (f : MappedFinding) : Finding :=
  findingOfDto (bindFindingDto f)

/-- A concrete submitted finding with scanner tag `csharp`. -/
def sentA : MappedFinding :=
  { ruleId := "R1", severity := "High", filePath := "a.ts", lineNumber := 1,
    description := "d", codeSnippet := "c", recommendation := "rec",
    scanner := "csharp" }

/-- The same finding with scanner tag `angular`. -/
def sentB : MappedFinding :=
  { sentA with scanner := "angular" }

/-- Counterexample to C3 as stated: the stored record retains no
originating-scanner information at all — two submitted findings that
differ only in their scanner tag produce identical stored records, so no
reading of the stored record can equal the tag sent by the agent. -/
theorem claim_C3_counterexample :
    storedFindingOfSent sentA = storedFindingOfSent sentB ∧
    sentA.scanner ≠ sentB.scanner ∧
    ¬ ∃ tagOf : Finding → String,
        ∀ sent : MappedFinding, tagOf (storedFindingOfSent sent) = sent.scanner := by
  refine ⟨rfl, by decide, ?_⟩
  rintro ⟨tagOf, h⟩
  have h1 := h sentA
  have h2 := h sentB
  have hAB : storedFindingOfSent sentA = storedFindingOfSent sentB := rfl
  rw [hAB] at h1
  have : sentA.scanner = sentB.scanner := h1.symm.trans h2
  exact absurd this (by decide)

/-- Claim C3, amended: every Finding persisted by SubmitResult carries
the seven descriptive fields (rule id, severity, file path, line number,
description, code excerpt, remediation text) exactly as sent, but not
the originating-scanner tag: `FindingDto` and the stored `Finding` have
no scanner field, so the tag sent by the agent is dropped and the stored
record is independent of it. -/
theorem claim_C3 :
    (∀ f : MappedFinding,
      storedFindingOfSent f =
        { ruleId := f.ruleId, severity := f.severity, filePath := f.filePath,
          lineNumber := f.lineNumber, description := f.description,
          codeSnippet := f.codeSnippet, recommendation := f.recommendation }) ∧
    (∀ (f : MappedFinding) (tag : String),
      storedFindingOfSent { f with scanner := tag } = storedFindingOfSent f) := by
  exact ⟨fun _ => rfl, fun _ _ => rfl⟩

/-! ## C7: SubmitResult inserts, never merges -/

/-- The `ScanResult` record built by `SubmitScanResultAsync` from a
submission received against store `db`. -/
def mkSubmitted (db : McpDb) (dto : ScanResultSubmissionDto) (now : Nat) : ScanResult :=
  { id := db.nextId
    scanRequestId := dto.scanRequestId
    agentId := dto.agentId
    completedAt := now
    findings := dto.findings.map findingOfDto
    summary := dto.summary }

theorem submitScanResult_ok (db : McpDb) (dto : ScanResultSubmissionDto) (now : Nat)
    (r : ScanRequest) (a : Agent)
    (hr : getScanRequestById db dto.scanRequestId = some r)
    (ha : getAgentById db dto.agentId = some a) :
    submitScanResult db dto now =
      ({ agents := db.agents
         scanRequests := (MCPServer.updateFirst (fun s => s.id == dto.scanRequestId)
           (fun s => { s with status := "Completed" }) db.scanRequests).1
         scanResults := db.scanResults ++ [mkSubmitted db dto now]
         nextId := db.nextId + 1 },
       ApiResult.ok (mkSubmitted db dto now)) := by
  simp only [submitScanResult, hr, ha]
  rfl

/-- Claim C7: when the referenced scan request and agent both exist,
`SubmitScanResult` returns `Created`, appends one brand-new `ScanResult`
carrying the submitted request id, agent id, findings and summary, and
sets the request's status to `Completed`; a second call for the same
request appends a second, distinct record under the same join key —
nothing is merged. -/
theorem claim_C7 :
    ∀ (db : McpDb) (dto : ScanResultSubmissionDto) (now now' : Nat)
      (r : ScanRequest) (a : Agent),
      getScanRequestById db dto.scanRequestId = some r →
      getAgentById db dto.agentId = some a →
      ∃ sr1 : ScanResult,
        (submitScanResult db dto now).2 = ApiResult.ok sr1 ∧
        (submitScanResult db dto now).1.scanResults = db.scanResults ++ [sr1] ∧
        sr1.scanRequestId = dto.scanRequestId ∧
        sr1.agentId = dto.agentId ∧
        sr1.findings = dto.findings.map findingOfDto ∧
        sr1.summary = dto.summary ∧
        getScanRequestById (submitScanResult db dto now).1 dto.scanRequestId =
          some { r with status := "Completed" } ∧
        ∃ sr2 : ScanResult,
          (submitScanResult (submitScanResult db dto now).1 dto now').2 =
            ApiResult.ok sr2 ∧
          (submitScanResult (submitScanResult db dto now).1 dto now').1.scanResults =
            db.scanResults ++ [sr1, sr2] ∧
          sr2.scanRequestId = dto.scanRequestId ∧
          sr1 ≠ sr2 := by
  intro db dto now now' r a hr ha
  have hr' : db.scanRequests.find? (fun s => s.id == dto.scanRequestId) = some r := hr
  have heq := submitScanResult_ok db dto now r a hr ha
  refine ⟨mkSubmitted db dto now, ?_, ?_, rfl, rfl, rfl, rfl, ?_, ?_⟩
  · rw [heq]
  · rw [heq]
  · rw [heq]
    exact MCPServer.updateFirst_find (fun s => s.id == dto.scanRequestId)
      (fun s => { s with status := "Completed" }) (fun _ => rfl) db.scanRequests r hr'
  · -- second submission against the updated store
    have hr2 : getScanRequestById (submitScanResult db dto now).1 dto.scanRequestId =
        some { r with status := "Completed" } := by
      rw [heq]
      exact MCPServer.updateFirst_find (fun s => s.id == dto.scanRequestId)
        (fun s => { s with status := "Completed" }) (fun _ => rfl) db.scanRequests r hr'
    have ha2 : getAgentById (submitScanResult db dto now).1 dto.agentId = some a := by
      rw [heq]; exact ha
    have heq2 := submitScanResult_ok (submitScanResult db dto now).1 dto now'
      { r with status := "Completed" } a hr2 ha2
    refine ⟨mkSubmitted (submitScanResult db dto now).1 dto now', ?_, ?_, rfl, ?_⟩
    · rw [heq2]
    · rw [heq2, heq]
      simp [mkSubmitted]
    · intro hc
      have hid := congrArg ScanResult.id hc
      have h1 : (mkSubmitted db dto now).id = db.nextId := rfl
      have h2 : (mkSubmitted (submitScanResult db dto now).1 dto now').id =
          db.nextId + 1 := by rw [heq]; rfl
      rw [h1, h2] at hid
      omega

/-- Witness for C7: both submissions applied against `db0`. -/
theorem claim_C7_witness :
    ∃ sr1 : ScanResult,
      (submitScanResult db0 ⟨0, 1, [], "No issues found."⟩ 7).2 = ApiResult.ok sr1 ∧
      (submitScanResult db0 ⟨0, 1, [], "No issues found."⟩ 7).1.scanResults =
        db0.scanResults ++ [sr1] ∧
      sr1.scanRequestId = 0 ∧
      sr1.agentId = 1 ∧
      sr1.findings = ([] : List FindingDto).map findingOfDto ∧
      sr1.summary = "No issues found." ∧
      getScanRequestById (submitScanResult db0 ⟨0, 1, [], "No issues found."⟩ 7).1 0 =
        some { reqPending with status := "Completed" } ∧
      ∃ sr2 : ScanResult,
        (submitScanResult (submitScanResult db0 ⟨0, 1, [], "No issues found."⟩ 7).1
          ⟨0, 1, [], "No issues found."⟩ 9).2 = ApiResult.ok sr2 ∧
        (submitScanResult (submitScanResult db0 ⟨0, 1, [], "No issues found."⟩ 7).1
          ⟨0, 1, [], "No issues found."⟩ 9).1.scanResults =
          db0.scanResults ++ [sr1, sr2] ∧
        sr2.scanRequestId = 0 ∧
        sr1 ≠ sr2 :=
  claim_C7 db0 ⟨0, 1, [], "No issues found."⟩ 7 9 reqPending agent1 (by decide) (by decide)

/-! ## C10: registration always inserts a fresh active record -/

/-- A sequence of registration calls (each with its arrival time),
applied to the store in order — e.g. an agent process restarting, or the
30-second registration retry in agentService.js firing more than once. -/
def registerMany (db : McpDb) (regs : List (AgentRegistrationDto × Nat)) : McpDb :=
  regs.foldl (fun d rg => (registerAgent d rg.1 rg.2).1) db

/-- Claim C10: every registration call inserts a brand-new Agent record
with a fresh id, `IsActive = true` and `LastSeen = now`; registration
never updates or merges an existing record, so n registration calls
leave n distinct new records, all marked active, with ids distinct from
each other and from every pre-existing record. -/
theorem claim_C10 :
    (∀ (db : McpDb) (dto : AgentRegistrationDto) (now : Nat),
      registerAgent db dto now =
        ({ db with
            agents := db.agents ++
              [{ id := db.nextId, name := dto.name, ipAddress := dto.ipAddress,
                 capabilities := dto.capabilities, lastSeen := now, isActive := true }]
            nextId := db.nextId + 1 },
         ApiResult.ok
           { id := db.nextId, name := dto.name, ipAddress := dto.ipAddress,
             capabilities := dto.capabilities, lastSeen := now, isActive := true })) ∧
    (∀ (regs : List (AgentRegistrationDto × Nat)) (db : McpDb),
      (∀ a ∈ db.agents, a.id < db.nextId) →
      ∃ news : List Agent,
        (registerMany db regs).agents = db.agents ++ news ∧
        news.length = regs.length ∧
        (∀ a ∈ news, a.isActive = true) ∧
        (news.map Agent.id).Nodup ∧
        (∀ a ∈ news, ∀ b ∈ db.agents, a.id ≠ b.id)) := by
  constructor
  · intro db dto now; rfl
  · intro regs
    induction regs with
    | nil =>
      intro db hwf
      exact ⟨[], by simp [registerMany], rfl, by simp, by simp, by simp⟩
    | cons rg rest ih =>
      intro db hwf
      have hdb1 : (registerAgent db rg.1 rg.2).1.agents =
          db.agents ++ [{ id := db.nextId, name := rg.1.name, ipAddress := rg.1.ipAddress,
                          capabilities := rg.1.capabilities, lastSeen := rg.2,
                          isActive := true }] := rfl
      have hnext1 : (registerAgent db rg.1 rg.2).1.nextId = db.nextId + 1 := rfl
      have hwf1 : ∀ a ∈ (registerAgent db rg.1 rg.2).1.agents,
          a.id < (registerAgent db rg.1 rg.2).1.nextId := by
        intro a hmem
        rw [hdb1] at hmem
        rw [hnext1]
        rcases List.mem_append.mp hmem with hold | hnew
        · exact Nat.lt_trans (hwf a hold) (by omega)
        · have : a = { id := db.nextId, name := rg.1.name, ipAddress := rg.1.ipAddress,
                       capabilities := rg.1.capabilities, lastSeen := rg.2,
                       isActive := true } := by simpa using hnew
          subst this
          show db.nextId < db.nextId + 1
          omega
      obtain ⟨news1, h1, h2, h3, h4, h5⟩ := ih (registerAgent db rg.1 rg.2).1 hwf1
      have hmemnew : ({ id := db.nextId, name := rg.1.name, ipAddress := rg.1.ipAddress,
                        capabilities := rg.1.capabilities, lastSeen := rg.2,
                        isActive := true } : Agent) ∈ (registerAgent db rg.1 rg.2).1.agents := by
        rw [hdb1]; simp
      refine ⟨{ id := db.nextId, name := rg.1.name, ipAddress := rg.1.ipAddress,
                capabilities := rg.1.capabilities, lastSeen := rg.2,
                isActive := true } :: news1, ?_, ?_, ?_, ?_, ?_⟩
      · have hstep : registerMany db (rg :: rest) =
            registerMany (registerAgent db rg.1 rg.2).1 rest := rfl
        rw [hstep, h1, hdb1]
        simp
      · simp [h2]
      · intro a hmem
        rcases List.mem_cons.mp hmem with hhd | htl
        · subst hhd; rfl
        · exact h3 a htl
      · rw [List.map_cons, List.nodup_cons]
        constructor
        · intro hc
          obtain ⟨b, hb, hbid⟩ := List.mem_map.mp hc
          exact h5 b hb _ hmemnew hbid
        · exact h4
      · intro a hmem b hb
        rcases List.mem_cons.mp hmem with hhd | htl
        · subst hhd
          have hlt := hwf b hb
          show db.nextId ≠ b.id
          omega
        · exact h5 a htl b (by rw [hdb1]; exact List.mem_append_left _ hb)

/-- Witness for C10: two registration calls against `db0` yield two new
distinct active records. -/
theorem claim_C10_witness :
    ∃ news : List Agent,
      (registerMany db0
        [(⟨"OWASP_Scanner_Agent", "10.0.0.5:3000", "C#,Angular,React,jQuery"⟩, 100),
         (⟨"OWASP_Scanner_Agent", "10.0.0.5:3000", "C#,Angular,React,jQuery"⟩, 130)]).agents =
        db0.agents ++ news ∧
      news.length =
        [((⟨"OWASP_Scanner_Agent", "10.0.0.5:3000", "C#,Angular,React,jQuery"⟩ :
            AgentRegistrationDto), 100),
         (⟨"OWASP_Scanner_Agent", "10.0.0.5:3000", "C#,Angular,React,jQuery"⟩, 130)].length ∧
      (∀ a ∈ news, a.isActive = true) ∧
      (news.map Agent.id).Nodup ∧
      (∀ a ∈ news, ∀ b ∈ db0.agents, a.id ≠ b.id) :=
  claim_C10.2
    [(⟨"OWASP_Scanner_Agent", "10.0.0.5:3000", "C#,Angular,React,jQuery"⟩, 100),
     (⟨"OWASP_Scanner_Agent", "10.0.0.5:3000", "C#,Angular,React,jQuery"⟩, 130)]
    db0 (by decide)

/-! ## Agent runtime: scan pipeline, delivery paths, adapter tolerance

`scanController.handleScanRequest` runs clone → analyze → summarize →
`submitResults` → cleanup, rethrowing any error after cleanup
(scanController.js lines 16-63).  `submitResults` posts the batches, the
summary, and then PUTs the final status: `Completed` when every batch and
the summary POST succeeded, `CompletedWithErrors` otherwise
(resultsService.js lines 106-162); it returns normally in either case.
The poll loop PUTs `InProgress` before each claimed request, and after
`handleScanRequest` returns PUTs `Completed` unconditionally — or
`Failed` if it threw (pollService.js lines 49-101).  The push endpoint
(`POST /api/scan`) only invokes `handleScanRequest` and logs its
outcome; it performs no status writes of its own (routes.js).

Network outcomes are supplied by an environment: which batch POSTs
succeed, whether the summary POST succeeds, and whether the pipeline
throws before submission (clone/analysis failure).  Status PUTs are
assumed delivered; by the store semantics proved for C2, after each
delivered PUT the stored status equals the value written, so the final
stored status is the last written value.
-/

/-- Outcomes of the submission POSTs: success of the i-th C#-group batch,
of the i-th other-group batch (1-based, matching `batchNumber`), and of
the final summary POST. -/
structure SubmitEnv where
  csharpBatchOk : Nat → Bool
  otherBatchOk : Nat → Bool
  summaryOk : Bool

/-- `submitFindingsBatch` returns `successfulBatches === totalBatches`
(resultsService.js line 63): true iff every batch POST succeeded. -/
def submitFindingsBatchOk (ok : Nat → Bool) (batchSize : Nat)
    (findings : List MappedFinding) : Bool :=
  (List.range (submitBatches batchSize findings).length).all (fun i => ok (i + 1))

/-- The `allSubmitted` flag computed by `submitResults`
(lines 106-146): true iff the C# group (when nonempty), the other group
(when nonempty) and the summary POST all succeeded. -/
def allSubmitted (env : SubmitEnv) (findings : List RawFinding) : Bool :=
  let mapped := findings.map mapFinding
  let csharpFindings := mapped.filter isCSharpFinding
  let otherFindings := mapped.filter (fun f => !isCSharpFinding f)
  (csharpFindings.length == 0 || submitFindingsBatchOk env.csharpBatchOk 25 csharpFindings) &&
  (otherFindings.length == 0 || submitFindingsBatchOk env.otherBatchOk 50 otherFindings) &&
  env.summaryOk

/-- The `finalStatus` written by `submitResults` (lines 148-159). -/
def submitResultsStatus (env : SubmitEnv) (findings : List RawFinding) : String :=
  if allSubmitted env findings then "Completed" else "CompletedWithErrors"

/-- The scan-level environment: submission outcomes plus whether the
pipeline (clone or analysis) throws before submission starts. -/
structure ScanEnv where
  submitEnv : SubmitEnv
  pipelineError : Bool

/-- One observable agent-to-coordinator interaction while processing a
scan request. -/
inductive AgentAction where
  | putStatus (scanId : Nat) (status : String)
  | scanWork (scanId : Nat)
deriving DecidableEq, Repr

/-- The actions of `handleScanRequest`: the scan work (clone + analyze),
then — unless the pipeline threw — the final-status PUT performed inside
`submitResults`. -/
def handleScanActions (env : ScanEnv) (findings : List RawFinding) (scanId : Nat) :
    List AgentAction :=
  if env.pipelineError then
    [AgentAction.scanWork scanId]
  else
    [AgentAction.scanWork scanId,
     AgentAction.putStatus scanId (submitResultsStatus env.submitEnv findings)]

/-- The poll loop's per-request processing (pollService.js lines 49-101):
PUT `InProgress`, run `handleScanRequest`, then PUT `Completed` if it
returned or `Failed` if it threw. -/
def processRequestActions (env : ScanEnv) (findings : List RawFinding) (scanId : Nat) :
    List AgentAction :=
  AgentAction.putStatus scanId "InProgress" ::
    handleScanActions env findings scanId ++
    [AgentAction.putStatus scanId (if env.pipelineError then "Failed" else "Completed")]

/-- The push path (`POST /api/scan`, routes.js): `handleScanRequest`
alone; a failure is only logged. -/
def pushActions (env : ScanEnv) (findings : List RawFinding) (scanId : Nat) :
    List AgentAction :=
  handleScanActions env findings scanId

/-- One poll tick (pollService.js lines 36-101): filter the fetched
requests to status `Pending` and own agent id, then process each in
order.  `envOf`/`findingsOf` give each request's network outcomes and
analysis results. -/
def pollTickActions (agentId : Nat) (fetched : List ScanRequest)
    (envOf : Nat → ScanEnv) (findingsOf : Nat → List RawFinding) : List AgentAction :=
  ((fetched.filter (fun r => r.status == "Pending" && r.agentId == agentId)).map
    (fun r => processRequestActions (envOf r.id) (findingsOf r.id) r.id)).flatten

/-- The sequence of status values PUT to the coordinator, in order. -/
def statusWritesOf (acts : List AgentAction) : List String :=
  acts.filterMap (fun a =>
    match a with
    | AgentAction.putStatus _ s => some s
    | AgentAction.scanWork _ => none)

/-- The request ids whose scan work was started, in order. -/
def processedIds (acts : List AgentAction) : List Nat :=
  acts.filterMap (fun a =>
    match a with
    | AgentAction.putStatus _ _ => none
    | AgentAction.scanWork i => some i)

/-- The stored status after a sequence of delivered status writes: the
last value written, or the prior status when nothing was written. -/
def finalStoredStatus (prior : String) (writes : List String) : String :=
  writes.getLast?.getD prior

/-- Status writes of the push path for one request. -/
def pushStatusWrites (env : ScanEnv) (findings : List RawFinding) (scanId : Nat) :
    List String :=
  statusWritesOf (pushActions env findings scanId)

/-- Status writes of the poll path for one request. -/
def pollStatusWrites (env : ScanEnv) (findings : List RawFinding) (scanId : Nat) :
    List String :=
  statusWritesOf (processRequestActions env findings scanId)

/-- In an action trace, every start of scan work on a request is preceded
by a write of `InProgress` for that request. -/
def claimedBeforeWork (acts : List AgentAction) : Prop :=
  ∀ (j rid : Nat), acts[j]? = some (AgentAction.scanWork rid) →
    AgentAction.putStatus rid "InProgress" ∈ acts.take j

theorem claimedBeforeWork_append {b rest : List AgentAction}
    (hb : claimedBeforeWork b) (hr : claimedBeforeWork rest) :
    claimedBeforeWork (b ++ rest) := by
  intro j rid h
  rcases Nat.lt_or_ge j b.length with hj | hj
  · rw [List.getElem?_append, if_pos hj] at h
    rw [List.take_append_eq_append_take]
    exact List.mem_append_left _ (hb j rid h)
  · rw [List.getElem?_append, if_neg (by omega)] at h
    rw [List.take_append_eq_append_take]
    exact List.mem_append_right _ (hr (j - b.length) rid h)

theorem claimedBeforeWork_flatten (blocks : List (List AgentAction))
    (h : ∀ b ∈ blocks, claimedBeforeWork b) :
    claimedBeforeWork blocks.flatten := by
  induction blocks with
  | nil => intro j rid hj; simp at hj
  | cons b bs ih =>
    rw [List.flatten_cons]
    exact claimedBeforeWork_append (h b (by simp))
      (ih (fun x hx => h x (by simp [hx])))

theorem claimedBeforeWork_processRequest (env : ScanEnv) (findings : List RawFinding)
    (scanId : Nat) :
    claimedBeforeWork (processRequestActions env findings scanId) := by
  intro j rid h
  by_cases hp : env.pipelineError
  all_goals
    simp only [processRequestActions, handleScanActions, hp, if_true, if_false,
      Bool.false_eq_true, ite_true, ite_false] at h ⊢
  all_goals
    match j with
    | 0 => simp at h
    | 1 =>
      simp at h
      subst h
      simp
    | 2 => simp at h
    | 3 => simp at h
    | n + 4 => simp at h

theorem processedIds_append (a b : List AgentAction) :
    processedIds (a ++ b) = processedIds a ++ processedIds b := by
  simp [processedIds, List.filterMap_append]

theorem processedIds_processRequest (env : ScanEnv) (findings : List RawFinding)
    (scanId : Nat) :
    processedIds (processRequestActions env findings scanId) = [scanId] := by
  by_cases hp : env.pipelineError
  all_goals simp [processRequestActions, handleScanActions, processedIds, hp]

/-- Claim C6: on every poll tick the agent starts scan work exactly for
the fetched requests whose status is `Pending` and whose agentId is its
own id, in fetch order, and every start of scan work is preceded in the
tick's action sequence by a write of `InProgress` for that request. -/
theorem claim_C6 :
    ∀ (agentId : Nat) (fetched : List ScanRequest)
      (envOf : Nat → ScanEnv) (findingsOf : Nat → List RawFinding),
      processedIds (pollTickActions agentId fetched envOf findingsOf) =
        (fetched.filter (fun r => r.status == "Pending" && r.agentId == agentId)).map
          (fun r => r.id) ∧
      claimedBeforeWork (pollTickActions agentId fetched envOf findingsOf) := by
  intro agentId fetched envOf findingsOf
  constructor
  · unfold pollTickActions
    generalize fetched.filter (fun r => r.status == "Pending" && r.agentId == agentId) = l
    induction l with
    | nil => rfl
    | cons r rs ih =>
      rw [List.map_cons, List.map_cons, List.flatten_cons, processedIds_append,
        processedIds_processRequest, ih]
      rfl
  · unfold pollTickActions
    apply claimedBeforeWork_flatten
    intro b hb
    obtain ⟨r, _, rfl⟩ := List.mem_map.mp hb
    exact claimedBeforeWork_processRequest _ _ _

/-- An environment in which every network call succeeds. -/
def envAllOk : ScanEnv :=
  { submitEnv := { csharpBatchOk := fun _ => true, otherBatchOk := fun _ => true,
                   summaryOk := true }
    pipelineError := false }

/-- An environment in which every POST of a non-C# findings batch fails
but everything else succeeds. -/
def envBatchFail : ScanEnv :=
  { submitEnv := { csharpBatchOk := fun _ => true, otherBatchOk := fun _ => false,
                   summaryOk := true }
    pipelineError := false }

/-- An environment in which the pipeline throws before submission
(e.g. the clone fails); the submission POSTs would all succeed. -/
def envCloneFail : ScanEnv :=
  { submitEnv := { csharpBatchOk := fun _ => true, otherBatchOk := fun _ => true,
                   summaryOk := true }
    pipelineError := true }

/-- Witness for C6: a tick over three fetched requests — one pending and
owned, one completed, one owned by another agent — starts work exactly on
the owned pending one. -/
theorem claim_C6_witness :
    processedIds (pollTickActions 1
        [reqPending, { reqPending with id := 5, status := "Completed" },
         { reqPending with id := 7, agentId := 2 }]
        (fun _ => envAllOk) (fun _ => [])) =
      ([reqPending, { reqPending with id := 5, status := "Completed" },
        { reqPending with id := 7, agentId := 2 }].filter
          (fun r => r.status == "Pending" && r.agentId == 1)).map (fun r => r.id) ∧
    claimedBeforeWork (pollTickActions 1
        [reqPending, { reqPending with id := 5, status := "Completed" },
         { reqPending with id := 7, agentId := 2 }]
        (fun _ => envAllOk) (fun _ => [])) :=
  claim_C6 1
    [reqPending, { reqPending with id := 5, status := "Completed" },
     { reqPending with id := 7, agentId := 2 }]
    (fun _ => envAllOk) (fun _ => [])

/-- Counterexample to C1 as stated: in the poll delivery path with a
failing findings batch, `submitResults` stores `CompletedWithErrors` but
the poll loop then unconditionally overwrites it with `Completed`
(pollService.js lines 71-80), so the final stored status is `Completed`,
not `CompletedWithErrors`; and in the push delivery path a pipeline
throw before submission produces no status write at all (routes.js only
logs the rejection), so the final stored status is the prior one, not
`Failed`. -/
theorem claim_C1_counterexample :
    allSubmitted envBatchFail.submitEnv [rawWithSeverity "High"] = false ∧
    finalStoredStatus "Pending"
      (pollStatusWrites envBatchFail [rawWithSeverity "High"] 0) = "Completed" ∧
    ("Completed" : String) ≠ "CompletedWithErrors" ∧
    envCloneFail.pipelineError = true ∧
    pushStatusWrites envCloneFail [rawWithSeverity "High"] 0 = [] ∧
    finalStoredStatus "Pending"
      (pushStatusWrites envCloneFail [rawWithSeverity "High"] 0) = "Pending" ∧
    ("Pending" : String) ≠ "Failed" := by
  exact ⟨by decide, by decide, by decide, rfl, rfl, rfl, by decide⟩

/-- Claim C1, amended: `submitResults` itself stores `Completed` when
every batch and the summary POST succeeded and `CompletedWithErrors`
otherwise, and in the push path that value is final (a pipeline throw
before submission leaves the stored status untouched there); in the poll
path, however, the loop afterwards overwrites the status with
`Completed` whenever the pipeline did not throw — also when batches
failed — and writes `Failed` when it threw. -/
theorem claim_C1 :
    ∀ (env : ScanEnv) (findings : List RawFinding) (scanId : Nat) (prior : String),
      pushStatusWrites env findings scanId =
        (if env.pipelineError then []
         else [submitResultsStatus env.submitEnv findings]) ∧
      finalStoredStatus prior (pushStatusWrites env findings scanId) =
        (if env.pipelineError then prior
         else submitResultsStatus env.submitEnv findings) ∧
      pollStatusWrites env findings scanId =
        (if env.pipelineError then ["InProgress", "Failed"]
         else ["InProgress", submitResultsStatus env.submitEnv findings, "Completed"]) ∧
      finalStoredStatus prior (pollStatusWrites env findings scanId) =
        (if env.pipelineError then "Failed" else "Completed") ∧
      submitResultsStatus env.submitEnv findings =
        (if allSubmitted env.submitEnv findings then "Completed"
         else "CompletedWithErrors") := by
  intro env findings scanId prior
  by_cases hp : env.pipelineError
  all_goals
    simp [pushStatusWrites, pollStatusWrites, pushActions, processRequestActions,
      handleScanActions, statusWritesOf, finalStoredStatus, submitResultsStatus, hp]

/-! ## C9: adapter failure is never fatal (`scanController.analyzeCode`)

Each scanner module's analyze function wraps its whole body in
try/catch and returns `[]` on any internal error (angularScanner.js
lines 90-93, and likewise in the C#, React, jQuery and Node scanners);
`analyzeCode` (scanController.js lines 70-109) runs the applicable
adapters in the fixed order C#, Angular, React, jQuery, Node and
concatenates their findings.  A repository snapshot carries the detected
project types and each adapter's internal outcome: the findings it would
produce, or the error its body raised.
-/

/-- A checked-out repository as the five adapters see it. -/
structure RepoSnapshot where
  projectTypes : List String
  csharpResult : Except String (List RawFinding)
  angularResult : Except String (List RawFinding)
  reactResult : Except String (List RawFinding)
  jqueryResult : Except String (List RawFinding)
  nodeResult : Except String (List RawFinding)
deriving Repr

/-- The try/catch boundary at the top of every analyze function: the
body's findings on success, the empty list on an internal error. -/
def adapterRun : Except String (List RawFinding) → List RawFinding
  | Except.ok fs => fs
  | Except.error _ => []

def analyzeCSharp (repo : RepoSnapshot) : List RawFinding := adapterRun repo.csharpResult

def analyzeAngular (repo : RepoSnapshot) : List RawFinding := adapterRun repo.angularResult

def analyzeReact (repo : RepoSnapshot) : List RawFinding := adapterRun repo.reactResult

def analyzeJQuery (repo : RepoSnapshot) : List RawFinding := adapterRun repo.jqueryResult

def analyzeNode (repo : RepoSnapshot) : List RawFinding := adapterRun repo.nodeResult

/-- `analyzeCode` (scanController.js lines 70-109): run each adapter
whose project type was detected, in the fixed order, collecting all
findings into one flat list. -/
def analyzeCode (repo : RepoSnapshot) : List RawFinding :=
  (if repo.projectTypes.contains "csharp" then analyzeCSharp repo else []) ++
  (if repo.projectTypes.contains "angular" then analyzeAngular repo else []) ++
  (if repo.projectTypes.contains "react" then analyzeReact repo else []) ++
  (if repo.projectTypes.contains "jquery" then analyzeJQuery repo else []) ++
  (if repo.projectTypes.contains "node" then analyzeNode repo else [])

/-- Claim C9: an adapter's internal failure is caught at its own boundary
and contributes the empty list, so `analyzeCode` completes and returns
the flat ordered concatenation of the applicable adapters' findings with
the failed adapter replaced by an empty contribution — for each of the
five adapters. -/
theorem claim_C9 :
    (∀ e, adapterRun (Except.error e) = []) ∧
    (∀ repo : RepoSnapshot,
      analyzeCode repo =
        (if repo.projectTypes.contains "csharp" then adapterRun repo.csharpResult else []) ++
        (if repo.projectTypes.contains "angular" then adapterRun repo.angularResult else []) ++
        (if repo.projectTypes.contains "react" then adapterRun repo.reactResult else []) ++
        (if repo.projectTypes.contains "jquery" then adapterRun repo.jqueryResult else []) ++
        (if repo.projectTypes.contains "node" then adapterRun repo.nodeResult else [])) ∧
    (∀ (repo : RepoSnapshot) (e : String),
      repo.csharpResult = Except.error e →
      analyzeCode repo = analyzeCode { repo with csharpResult := Except.ok [] }) ∧
    (∀ (repo : RepoSnapshot) (e : String),
      repo.angularResult = Except.error e →
      analyzeCode repo = analyzeCode { repo with angularResult := Except.ok [] }) ∧
    (∀ (repo : RepoSnapshot) (e : String),
      repo.reactResult = Except.error e →
      analyzeCode repo = analyzeCode { repo with reactResult := Except.ok [] }) ∧
    (∀ (repo : RepoSnapshot) (e : String),
      repo.jqueryResult = Except.error e →
      analyzeCode repo = analyzeCode { repo with jqueryResult := Except.ok [] }) ∧
    (∀ (repo : RepoSnapshot) (e : String),
      repo.nodeResult = Except.error e →
      analyzeCode repo = analyzeCode { repo with nodeResult := Except.ok [] }) := by
  refine ⟨fun e => rfl, fun repo => rfl, ?_, ?_, ?_, ?_, ?_⟩
  all_goals
    intro repo e h
    simp [analyzeCode, analyzeCSharp, analyzeAngular, analyzeReact, analyzeJQuery,
      analyzeNode, adapterRun, h]

/-- A concrete snapshot: an Angular+Node repository where the Angular
adapter's tooling crashed and the Node adapter found one issue. -/
def repoEx : RepoSnapshot :=
  { projectTypes := ["angular", "node"]
    csharpResult := Except.ok []
    angularResult := Except.error "eslint crashed"
    reactResult := Except.ok []
    jqueryResult := Except.ok []
    nodeResult := Except.ok [rawWithSeverity "High"] }

/-- Witness for C9: the Angular-failure clause applied at `repoEx`. -/
theorem claim_C9_witness :
    analyzeCode repoEx = analyzeCode { repoEx with angularResult := Except.ok [] } :=
  claim_C9.2.2.2.1 repoEx "eslint crashed" rfl
